import Mathlib

/-!
Shallow embedding of the Angrymoji projectile simulation from
`src/app/games/saturday/angrymoji-game.tsx`.

JavaScript numbers are modelled as exact rationals (`ℚ`) for the purely
arithmetic parts of the engine (integration, collision, round lifecycle,
target placement) and as real numbers (`ℝ`) for the two gesture helpers
that call `Math.hypot` (a square root).  `Math.sin` is modelled as an
oracle parameter `sinv : ℚ → ℚ` supplied to the tick, and `Math.random`
as an indexed oracle stream `rng : ℕ → ℚ` consumed in source order.
React `useState`/`useRef` cells become fields of explicit state records;
`window.setTimeout` callbacks become `Pending` events carried in the
state and fired by `fireEvent`.
-/

namespace Angrymoji

/-- CANVAS_WIDTH constant (360). -/
def CANVAS_WIDTH : ℚ := 360

/-- CANVAS_HEIGHT constant (320). -/
def CANVAS_HEIGHT : ℚ := 320

/-- GROUND_Y = CANVAS_HEIGHT - 34. -/
def GROUND_Y : ℚ := CANVAS_HEIGHT - 34

/-- Maximum pull radius MAX_PULL (115). -/
def MAX_PULL : ℚ := 115

/-- PROJECTILE_RADIUS (22). -/
def PROJECTILE_RADIUS : ℚ := 22

/-- GRAVITY in px/s^2 (2000). -/
def GRAVITY : ℚ := 2000

/-- VELOCITY_MULTIPLIER (9.2 = 46/5). -/
def VELOCITY_MULTIPLIER : ℚ := 46 / 5

/-- TRAJECTORY_STEPS (64). -/
def TRAJECTORY_STEPS : ℕ := 64

/-- TRAJECTORY_INTERVAL, seconds per simulated step (1/55). -/
def TRAJECTORY_INTERVAL : ℚ := 1 / 55

/-- TARGET_SIZE (48). -/
def TARGET_SIZE : ℚ := 48

/-- MAX_TARGETS (3). -/
def MAX_TARGETS : ℕ := 3

/-- SHOTS_PER_ROUND (2). -/
def SHOTS_PER_ROUND : ℕ := 2

/-- A 2-D point or vector (the `Point` type of the source). -/
structure Point where
  x : ℚ
  y : ℚ
deriving DecidableEq, Repr

/-- SLING_ANCHOR = { x: 90, y: GROUND_Y - 40 }. -/
def SLING_ANCHOR : Point := ⟨90, GROUND_Y - 40⟩

/-- Oscillation axis of a moving target. -/
inductive Axis
  | x
  | y
deriving DecidableEq, Repr

/-- The optional `motion` record of a target. -/
structure Motion where
  axis : Axis
  amplitude : ℚ
  speed : ℚ
  phase : ℚ
deriving DecidableEq, Repr

/-- A target.  The presentational `id` and `emoji` string fields of the
source are dropped; the emoji pick is kept as the chosen index. -/
structure Target where
  position : Point
  basePosition : Point
  size : ℚ
  hit : Bool
  motion : Option Motion
  emojiIdx : ℤ
deriving DecidableEq, Repr

/-- An axis-aligned rectangular obstacle (`position` is the top-left). -/
structure Obstacle where
  position : Point
  width : ℚ
  height : ℚ
deriving DecidableEq, Repr

/-- The projectile ref: position, velocity, active flag. -/
structure Projectile where
  position : Point
  velocity : Point
  active : Bool
deriving DecidableEq, Repr

/-- GameStatus: "ready" | "aiming" | "flying" | "cooldown" | "failed". -/
inductive GameStatus
  | ready
  | aiming
  | flying
  | cooldown
  | failed
deriving DecidableEq, Repr

/-- Deactivation reason recorded by the tick (`endReason`). -/
inductive EndReason
  | ground
  | bounds
deriving DecidableEq, Repr

/-- A scheduled `setTimeout` transition, as data: the round-advance
callback of the clear branch, the hard reset scheduled by
`triggerFailure`, and the cooldown-to-ready callback of the miss branch.
Each carries its delay in milliseconds. -/
inductive Pending
  | advance (nextLevel : ℕ) (delay : ℚ)
  | failReset (delay : ℚ)
  | cooldownReady (reason : EndReason) (delay : ℚ)
deriving DecidableEq, Repr

/-- The simulation state: the refs and state cells of the component that
the engine mutates (`score`, `level`, `shotsLeft`, `statusRef`,
`targetsRef`, `obstaclesRef`, `projectileRef`, `timeoutsRef`). -/
structure GameState where
  level : ℕ
  score : ℕ
  shotsLeft : ℕ
  status : GameStatus
  targets : List Target
  obstacles : List Obstacle
  projectile : Projectile
  pending : List Pending
deriving DecidableEq, Repr

/-- The projectile as reset by `resetProjectile`: parked at the anchor,
zero velocity, inactive. -/
def resetProjectile : Projectile :=
  { position := SLING_ANCHOR, velocity := ⟨0, 0⟩, active := false }

/-- Target-motion phase of `animationStep` (the `targets.forEach` at the
top of the tick): a target with motion that is not hit oscillates around
`basePosition` by `Math.sin(timeSeconds * speed + phase) * amplitude`,
with the vertical axis clamped to `[max 45 (GROUND_Y-TARGET_SIZE-140),
GROUND_Y-TARGET_SIZE-6]`; all other targets snap to `basePosition`.
`sinv` is the `Math.sin` oracle. -/
def updateTargetMotion (sinv : ℚ → ℚ) (timeSeconds : ℚ) (t : Target) : Target :=
  match t.motion, t.hit with
  | some m, false =>
    let offset := sinv (timeSeconds * m.speed + m.phase) * m.amplitude
    match m.axis with
    | Axis.x => { t with position := ⟨t.basePosition.x + offset, t.basePosition.y⟩ }
    | Axis.y =>
      let minY := max 45 (GROUND_Y - TARGET_SIZE - 140)
      let maxY := GROUND_Y - TARGET_SIZE - 6
      { t with position := ⟨t.basePosition.x, min maxY (max minY (t.basePosition.y + offset))⟩ }
  | _, _ => { t with position := t.basePosition }

/-- Semi-implicit Euler integration step of the tick:
`velocity.y += GRAVITY * delta` and then `position += velocity * delta`
(the updated vertical velocity is used for the position update). -/
def integrate (delta : ℚ) (p : Projectile) : Projectile :=
  let vy := p.velocity.y + GRAVITY * delta
  { p with
    velocity := ⟨p.velocity.x, vy⟩,
    position := ⟨p.position.x + p.velocity.x * delta, p.position.y + vy * delta⟩ }

/-- circleRectIntersect: closest point of the rectangle to the circle
center; intersect iff squared distance ≤ radius².  The source compares
squared quantities directly, so this is exact. -/
def circleRectIntersect (center : Point) (radius : ℚ) (o : Obstacle) : Bool :=
  let closestX := max o.position.x (min center.x (o.position.x + o.width))
  let closestY := max o.position.y (min center.y (o.position.y + o.height))
  let dx := center.x - closestX
  let dy := center.y - closestY
  decide (dx * dx + dy * dy ≤ radius * radius)

/-- Obstacle-collision resolution for one obstacle (body of the
`obstaclesRef.current.forEach` of the tick): on intersection, reflect and
dampen (×(-0.55)) the velocity component of the dominant penetration axis
(the axis with larger absolute offset of the projectile center from the
obstacle center) and clamp that position coordinate to one radius outside
the obstacle on the side of the penetration. -/
def resolveObstacle (o : Obstacle) (p : Projectile) : Projectile :=
  if circleRectIntersect p.position PROJECTILE_RADIUS o then
    let obstacleCenterX := o.position.x + o.width / 2
    let obstacleCenterY := o.position.y + o.height / 2
    let dx := p.position.x - obstacleCenterX
    let dy := p.position.y - obstacleCenterY
    if |dx| > |dy| then
      { p with
        velocity := ⟨p.velocity.x * (-(11/20)), p.velocity.y⟩,
        position := ⟨if dx > 0 then o.position.x + o.width + PROJECTILE_RADIUS
                     else o.position.x - PROJECTILE_RADIUS,
                     p.position.y⟩ }
    else
      { p with
        velocity := ⟨p.velocity.x, p.velocity.y * (-(11/20))⟩,
        position := ⟨p.position.x,
                     if dy > 0 then o.position.y + o.height + PROJECTILE_RADIUS
                     else o.position.y - PROJECTILE_RADIUS⟩ }
  else p

/-- The obstacle loop of the tick (with its defensive `!projectile.active`
early return). -/
def resolveObstacles (obs : List Obstacle) (p : Projectile) : Projectile :=
  obs.foldl (fun q o => if q.active then resolveObstacle o q else q) p

/-- Ground-collision step of the tick: if the projectile is past the
ground line, clamp `y`, reflect and strongly damp the vertical velocity
(×(-0.25)), damp the horizontal velocity (×0.6), and deactivate with
reason `ground` when the rebounded vertical speed is below 40. -/
def groundStep (p : Projectile) : Projectile × Option EndReason :=
  if p.position.y > GROUND_Y - PROJECTILE_RADIUS then
    let vy := p.velocity.y * (-(1/4))
    let vx := p.velocity.x * (3/5)
    let q : Projectile :=
      { position := ⟨p.position.x, GROUND_Y - PROJECTILE_RADIUS⟩,
        velocity := ⟨vx, vy⟩,
        active := p.active }
    if |vy| < 40 then ({ q with active := false }, some EndReason.ground)
    else (q, none)
  else (p, none)

/-- Bounds check of the tick: leaving the horizontal play area (with an
80px margin) or exiting far above the top deactivates the projectile and
records (possibly overwriting) the reason `bounds`. -/
def boundsStep (pr : Projectile × Option EndReason) : Projectile × Option EndReason :=
  if pr.1.position.x > CANVAS_WIDTH + 80 ∨ pr.1.position.x < -80 ∨ pr.1.position.y < -120 then
    ({ pr.1 with active := false }, some EndReason.bounds)
  else pr

/-- Target-hit test of the tick: `Math.hypot(px - cX, py - cY) ≤
PROJECTILE_RADIUS + size / 2.4`, rendered exactly over ℚ as the
equivalent squared comparison together with non-negativity of the
threshold. -/
def targetHit (p : Projectile) (t : Target) : Bool :=
  let centerX := t.position.x + t.size / 2
  let centerY := t.position.y + t.size / 2
  let dx := p.position.x - centerX
  let dy := p.position.y - centerY
  let thresh := PROJECTILE_RADIUS + t.size / (12/5)
  decide (0 ≤ thresh ∧ dx * dx + dy * dy ≤ thresh * thresh)

/-- Physics phases of `animationStep` (steps 1-7 of the spec): target
motion, then — only while the projectile is active — integration,
obstacle resolution, ground collision, bounds check, and target-hit
detection (each new hit increments the score by one).  Returns the tick's
`endReason`. -/
def tickPhys (sinv : ℚ → ℚ) (timeSeconds delta : ℚ) (s : GameState) :
    GameState × Option EndReason :=
  let ts := s.targets.map (updateTargetMotion sinv timeSeconds)
  if s.projectile.active then
    let p1 := integrate delta s.projectile
    let p2 := resolveObstacles s.obstacles p1
    let pr3 := groundStep p2
    let pr4 := boundsStep pr3
    let newHits := ts.countP (fun t => !t.hit && targetHit pr4.1 t)
    let ts2 := ts.map (fun t => if !t.hit && targetHit pr4.1 t then { t with hit := true } else t)
    ({ s with targets := ts2, projectile := pr4.1, score := s.score + newHits }, pr4.2)
  else
    ({ s with targets := ts }, none)

/-- triggerFailure: unless already failed, clear all pending timeouts,
reset the projectile, zero the shot budget, set status `failed`, and
schedule the hard reset `setupLevel 1` after 900ms. -/
def triggerFailure (s : GameState) : GameState :=
  if s.status = GameStatus.failed then s
  else
    { s with
      pending := [Pending.failReset 900],
      projectile := resetProjectile,
      shotsLeft := 0,
      status := GameStatus.failed }

/-- Round-lifecycle branch at the end of `animationStep`: if every target
is hit (and there are targets, and the status is not already cooldown),
enter cooldown, deactivate the projectile and schedule the advance to
`level + 1` after 800ms; otherwise, if the projectile just deactivated
and un-hit targets remain, either trigger failure (budget exhausted) or
enter cooldown and schedule the return to ready (600ms for ground, 450ms
for bounds). -/
def applyLifecycle (sr : GameState × Option EndReason) : GameState :=
  let s := sr.1
  let remaining := s.targets.countP (fun t => !t.hit)
  if remaining = 0 ∧ s.targets ≠ [] ∧ s.status ≠ GameStatus.cooldown then
    { s with
      status := GameStatus.cooldown,
      projectile := { s.projectile with active := false },
      pending := s.pending ++ [Pending.advance (s.level + 1) 800] }
  else
    match sr.2 with
    | some r =>
      if s.projectile.active = false ∧ 0 < remaining then
        if s.shotsLeft ≤ 0 then triggerFailure s
        else if s.status ≠ GameStatus.cooldown ∧ s.status ≠ GameStatus.failed then
          { s with
            status := GameStatus.cooldown,
            pending := s.pending ++
              [Pending.cooldownReady r (if r = EndReason.ground then 600 else 450)] }
        else s
      else s
    | none => s

/-- One full tick of `animationStep` (physics phases then the lifecycle
branch), over the `Math.sin` oracle `sinv`, the wall-clock time in
seconds, and the frame delta in seconds. -/
def tick (sinv : ℚ → ℚ) (timeSeconds delta : ℚ) (s : GameState) : GameState :=
  applyLifecycle (tickPhys sinv timeSeconds delta s)

/-- Arguments of one tick: the `Math.sin` oracle and the two times. -/
structure TickIn where
  sinv : ℚ → ℚ
  timeSeconds : ℚ
  delta : ℚ

/-- A sequence of ticks, run left to right. -/
def runTicks (l : List TickIn) (s : GameState) : GameState :=
  l.foldl (fun s a => tick a.sinv a.timeSeconds a.delta s) s

/-- The per-level environment oracle: the targets and obstacles that
`buildTargets`/`buildObstacle` produce for a level (absorbing their
`Math.random` draws). -/
def LevelEnv : Type := ℕ → List Target × List Obstacle

/-- setupLevel: clear all pending timeouts, install the level's targets
and obstacles, reset the shot budget to `SHOTS_PER_ROUND`, reset the
projectile, and set status `ready`.  The score is untouched. -/
def setupLevel (env : LevelEnv) (nextLevel : ℕ) (s : GameState) : GameState :=
  { level := nextLevel,
    score := s.score,
    shotsLeft := SHOTS_PER_ROUND,
    status := GameStatus.ready,
    targets := (env nextLevel).1,
    obstacles := (env nextLevel).2,
    projectile := resetProjectile,
    pending := [] }

/-- Firing a scheduled timeout: the callback is removed from the pending
list and run.  The clear-branch callback resets the projectile, sets
status ready and calls `setupLevel (level+1)`; the failure callback calls
`setupLevel 1`; the miss-cooldown callback resets the projectile and
returns to ready. -/
def fireEvent (env : LevelEnv) (e : Pending) (s : GameState) : GameState :=
  let s0 := { s with pending := s.pending.erase e }
  match e with
  | Pending.advance n _ =>
    setupLevel env n { s0 with projectile := resetProjectile, status := GameStatus.ready }
  | Pending.failReset _ => setupLevel env 1 s0
  | Pending.cooldownReady _ _ =>
    { s0 with projectile := resetProjectile, status := GameStatus.ready }

/-- Recursion of `simulateTrajectory`: integrate one fixed step; stop
(without recording the point) as soon as the integrated y-coordinate
crosses the ground line, else record the point and continue. -/
def trajAux (fuel : ℕ) (pos vel : Point) : List Point :=
  match fuel with
  | 0 => []
  | fuel + 1 =>
    let vy := vel.y + GRAVITY * TRAJECTORY_INTERVAL
    let nextPos : Point := ⟨pos.x + vel.x * TRAJECTORY_INTERVAL, pos.y + vy * TRAJECTORY_INTERVAL⟩
    if nextPos.y > GROUND_Y - PROJECTILE_RADIUS then []
    else nextPos :: trajAux fuel nextPos ⟨vel.x, vy⟩
termination_by structural fuel

/-- simulateTrajectory: the aiming-phase preview path — at most
`TRAJECTORY_STEPS` fixed-timestep Euler steps from `start` with initial
`velocity`.  A pure function of its two arguments (so deterministic, and
it can touch no round state). -/
def simulateTrajectory (start velocity : Point) : List Point :=
  trajAux TRAJECTORY_STEPS start velocity

/-- Horizontal placement lower bound of `buildTargets`: `SLING_ANCHOR.x + 70`. -/
def buildMinX : ℚ := SLING_ANCHOR.x + 70

/-- Horizontal placement upper bound of `buildTargets`:
`CANVAS_WIDTH - TARGET_SIZE - 12`. -/
def buildMaxX : ℚ := CANVAS_WIDTH - TARGET_SIZE - 12

/-- Vertical placement baseline of `buildTargets`:
`GROUND_Y - TARGET_SIZE - 6`. -/
def buildGroundY : ℚ := GROUND_Y - TARGET_SIZE - 6

/-- Level-scaled vertical placement range of `buildTargets`:
`min 140 (60 + level * 20)`. -/
def buildVerticalRange (level : ℕ) : ℚ := min 140 (60 + (level : ℚ) * 20)

/-- Vertical placement upper bound (smallest y) of `buildTargets`:
`max 45 (groundY - verticalRange)`. -/
def buildMinY (level : ℕ) : ℚ := max 45 (buildGroundY - buildVerticalRange level)

/-- Per-round target count of `buildTargets`:
`min MAX_TARGETS (max 2 (min (level + 1) (SHOTS_PER_ROUND * 2)))`. -/
def targetCount (level : ℕ) : ℕ :=
  min MAX_TARGETS (max 2 (min (level + 1) (SHOTS_PER_ROUND * 2)))

/-- overlapsExisting of `buildTargets`: a candidate position is rejected
when some already-placed target is within `TARGET_SIZE + 12` on both
axes. -/
def overlapsExisting (placed : List Target) (x y : ℚ) : Bool :=
  placed.any (fun t =>
    decide (|t.position.x - x| < TARGET_SIZE + 12 ∧ |t.position.y - y| < TARGET_SIZE + 12))

/-- intersectsObstacle of `buildTargets`: a candidate rejected when its
box horizontally overlaps the obstacle (10px margin) and reaches below
the obstacle's top (10px margin). -/
def intersectsObstacle (ob : Option Obstacle) (x y : ℚ) : Bool :=
  match ob with
  | none => false
  | some o =>
    if x + TARGET_SIZE > o.position.x - 10 ∧ x < o.position.x + o.width + 10 then
      decide (y + TARGET_SIZE > o.position.y - 10)
    else false

/-- A freshly placed (not yet hit, motionless) target at a base position,
with its emoji index `Math.floor(Math.random() * 6)` taken from a draw. -/
def freshTarget (basePos : Point) (emojiDraw : ℚ) : Target :=
  { position := basePos,
    basePosition := basePos,
    size := TARGET_SIZE,
    hit := false,
    motion := none,
    emojiIdx := ⌊emojiDraw * 6⌋ }

/-- Rejection-sampling inner loop of `buildTargets` (up to 36 attempts per
slot).  Each attempt consumes two `Math.random` draws (candidate x and y);
an accepted placement additionally consumes the id draw and the
`pickEmoji` draw.  Returns the placed target (if any) and the next rng
index. -/
def tryPlace (level : ℕ) (ob : Option Obstacle) (placed : List Target) (rng : ℕ → ℚ) :
    ℕ → ℕ → Option Target × ℕ
  | 0, c => (none, c)
  | fuel + 1, c =>
    let spanX := max 10 (buildMaxX - buildMinX)
    let randomX := buildMinX + rng c * spanX
    let clampedX := min buildMaxX (max buildMinX randomX)
    let randomY := buildGroundY - rng (c + 1) * buildVerticalRange level
    let clampedY := min buildGroundY (max (buildMinY level) randomY)
    if overlapsExisting placed clampedX clampedY ∨ intersectsObstacle ob clampedX clampedY then
      tryPlace level ob placed rng fuel (c + 2)
    else
      (some (freshTarget ⟨clampedX, clampedY⟩ (rng (c + 3))), c + 4)

/-- Deterministic fallback placement of `buildTargets` for slot `index`
when all 36 attempts were rejected: a grid offset from the left bound,
nudged off the obstacle where needed and clamped into bounds.  Consumes
the id draw and the `pickEmoji` draw. -/
def fallbackTarget (level index : ℕ) (ob : Option Obstacle) (rng : ℕ → ℚ) (c : ℕ) : Target :=
  let fx0 := min buildMaxX (buildMinX + (index : ℚ) * (TARGET_SIZE + 18))
  let fx1 :=
    match ob with
    | none => fx0
    | some o =>
      if fx0 + TARGET_SIZE > o.position.x - 10 ∧ fx0 < o.position.x + o.width + 10 then
        o.position.x - TARGET_SIZE - 16
      else fx0
  let fallbackX := min buildMaxX (max buildMinX fx1)
  let fy0 := buildGroundY - ((index / 2 : ℕ) : ℚ) * (TARGET_SIZE + 18)
  let fy1 :=
    match ob with
    | none => fy0
    | some o => if fy0 + TARGET_SIZE > o.position.y - 10 then o.position.y - TARGET_SIZE - 12 else fy0
  let fallbackY := min buildGroundY (max (buildMinY level) fy1)
  freshTarget ⟨fallbackX, fallbackY⟩ (rng (c + 1))

/-- Outer placement loop of `buildTargets`: fill `slots` consecutive
slots starting at `index`, each by rejection sampling with fallback, so
every slot appends exactly one target. -/
def buildSlots (level : ℕ) (ob : Option Obstacle) (rng : ℕ → ℚ) :
    ℕ → ℕ → List Target → ℕ → List Target × ℕ
  | 0, _, acc, c => (acc, c)
  | slots + 1, index, acc, c =>
    match tryPlace level ob acc rng 36 c with
    | (some t, c2) => buildSlots level ob rng slots (index + 1) (acc ++ [t]) c2
    | (none, c2) =>
      buildSlots level ob rng slots (index + 1) (acc ++ [fallbackTarget level index ob rng c2]) (c2 + 2)

/-- Room-limited oscillation amplitude of the motion-assignment block of
`buildTargets`. -/
def amplitudeForAxis (horizontalRoom verticalRoom : ℚ) : Axis → ℚ
  | Axis.x => min 24 horizontalRoom
  | Axis.y => min 20 verticalRoom

/-- The other axis. -/
def flipAxis : Axis → Axis
  | Axis.x => Axis.y
  | Axis.y => Axis.x

/-- Motion-assignment block of `buildTargets` (only for `level ≥ 2` and a
non-empty target list): the target at index `(level + count) % count`
receives sinusoidal motion whose axis is drawn at random (switching axes
when the first choice leaves amplitude < 6) and whose amplitude is capped
by the room to the placement bounds; if even the switched axis leaves
amplitude < 6, motion is removed and the target snaps to its base.
`piQ` models the double constant `Math.PI`. -/
def assignMotion (piQ : ℚ) (level : ℕ) (targets : List Target) (rng : ℕ → ℚ) (c : ℕ) :
    List Target :=
  if level ≥ 2 ∧ targets ≠ [] then
    let movingIndex := (level + targets.length) % targets.length
    let mt := targets.getD movingIndex (freshTarget ⟨0, 0⟩ 0)
    let horizontalRoom := min (mt.basePosition.x - buildMinX) (buildMaxX - mt.basePosition.x)
    let verticalRoom := min (mt.basePosition.y - buildMinY level) (buildGroundY - mt.basePosition.y)
    let axis0 := if rng c < 1/2 then Axis.x else Axis.y
    let axis := if amplitudeForAxis horizontalRoom verticalRoom axis0 < 6 then flipAxis axis0
                else axis0
    let amplitude := amplitudeForAxis horizontalRoom verticalRoom axis
    if amplitude ≥ 6 then
      targets.set movingIndex
        { mt with
          motion := some
            { axis := axis,
              amplitude := amplitude,
              speed := 4/5 + rng (c + 1) * (3/5),
              phase := rng (c + 2) * piQ * 2 } }
    else
      targets.set movingIndex { mt with motion := none, position := mt.basePosition }
  else targets

/-- buildTargets: rejection-sampled placement of `targetCount level`
targets (fallback-deterministic when sampling fails), then the motion
assignment for levels ≥ 2.  `rng` is the `Math.random` oracle stream,
consumed from index `c`; `piQ` models `Math.PI`. -/
def buildTargets (piQ : ℚ) (level : ℕ) (ob : Option Obstacle) (rng : ℕ → ℚ) (c : ℕ) :
    List Target :=
  let placedPair := buildSlots level ob rng (targetCount level) 0 [] c
  assignMotion piQ level placedPair.1 rng placedPair.2

/-- A 2-D point over the reals, for the two gesture helpers that call
`Math.hypot`. -/
structure RPoint where
  x : ℝ
  y : ℝ

/-- Math.hypot of two offsets: the square root of the sum of squares. -/
noncomputable def hypotR (dx dy : ℝ) : ℝ := Real.sqrt (dx ^ 2 + dy ^ 2)

/-- The sling anchor over the reals. -/
noncomputable def anchorR : RPoint := ⟨(SLING_ANCHOR.x : ℝ), (SLING_ANCHOR.y : ℝ)⟩

/-- clampPullPoint: a pull point within `MAX_PULL` of the anchor is kept;
beyond that it is rescaled radially onto the `MAX_PULL` circle. -/
noncomputable def clampPullPoint (p : RPoint) : RPoint :=
  let dx := p.x - anchorR.x
  let dy := p.y - anchorR.y
  let distance := hypotR dx dy
  if distance ≤ (MAX_PULL : ℝ) then ⟨p.x, p.y⟩
  else
    let k := (MAX_PULL : ℝ) / distance
    ⟨anchorR.x + dx * k, anchorR.y + dy * k⟩

/-- computeVelocityFromPull: the launch velocity is the negated pull
vector scaled by `VELOCITY_MULTIPLIER`. -/
noncomputable def computeVelocityFromPull (pullPoint : RPoint) : RPoint :=
  ⟨-(pullPoint.x - anchorR.x) * (VELOCITY_MULTIPLIER : ℝ),
   -(pullPoint.y - anchorR.y) * (VELOCITY_MULTIPLIER : ℝ)⟩

/-- The projectile over the reals, for the release gesture. -/
structure RProjectile where
  position : RPoint
  velocity : RPoint
  active : Bool

/-- The state touched by `handlePointerUp`: the drag refs, the trajectory
preview, the shot budget, the projectile and the status. -/
structure AimState where
  dragging : Bool
  dragPoint : Option RPoint
  trajectory : List RPoint
  shotsLeft : ℕ
  projectile : RProjectile
  status : GameStatus

/-- handlePointerUp: ignore the event when no drag is in progress;
otherwise end the drag and clear the preview, then either abandon the aim
(pull distance below 6: status back to ready, nothing else changes) or
consume one shot (`Math.max(0, current - 1)`, which is truncated
subtraction on ℕ) and activate the projectile at the anchor with the
velocity derived from the pull. -/
noncomputable def handlePointerUp (s : AimState) : AimState :=
  if s.dragging = false then s
  else
    let pullPoint := s.dragPoint.getD ⟨anchorR.x, anchorR.y⟩
    let s1 : AimState := { s with dragging := false, dragPoint := none, trajectory := [] }
    let pullDistance := hypotR (pullPoint.x - anchorR.x) (pullPoint.y - anchorR.y)
    if pullDistance < 6 then { s1 with status := GameStatus.ready }
    else
      { s1 with
        shotsLeft := s.shotsLeft - 1,
        projectile :=
          { position := ⟨anchorR.x, anchorR.y⟩,
            velocity := computeVelocityFromPull pullPoint,
            active := true },
        status := GameStatus.flying }

/-- Unfolding equation of `trajAux` for a positive fuel. -/
theorem trajAux_succ (fuel : ℕ) (pos vel : Point) :
    trajAux (fuel + 1) pos vel =
      (if pos.y + (vel.y + GRAVITY * TRAJECTORY_INTERVAL) * TRAJECTORY_INTERVAL
            > GROUND_Y - PROJECTILE_RADIUS then ([] : List Point)
       else (⟨pos.x + vel.x * TRAJECTORY_INTERVAL,
              pos.y + (vel.y + GRAVITY * TRAJECTORY_INTERVAL) * TRAJECTORY_INTERVAL⟩ : Point) ::
         trajAux fuel ⟨pos.x + vel.x * TRAJECTORY_INTERVAL,
              pos.y + (vel.y + GRAVITY * TRAJECTORY_INTERVAL) * TRAJECTORY_INTERVAL⟩
           ⟨vel.x, vel.y + GRAVITY * TRAJECTORY_INTERVAL⟩) := rfl

/-- The recursion of the trajectory preview returns at most `fuel` points,
each at or above the ground line minus the projectile radius. -/
theorem trajAux_bounded : ∀ (fuel : ℕ) (pos vel : Point),
    (trajAux fuel pos vel).length ≤ fuel ∧
    ∀ p ∈ trajAux fuel pos vel, p.y ≤ GROUND_Y - PROJECTILE_RADIUS := by
  intro fuel
  induction fuel with
  | zero => intro pos vel; simp [trajAux]
  | succ k ih =>
    intro pos vel
    simp only [trajAux]
    split
    · simp
    · rename_i hle
      push_neg at hle
      constructor
      · simpa using (ih _ _).1
      · intro p hp
        rcases List.mem_cons.mp hp with h | h
        · subst h; exact hle
        · exact (ih _ _).2 p h

/-- C7: the trajectory preview is a pure function of `(start, velocity)`
(determinism and absence of round-state mutation hold by construction:
`simulateTrajectory` takes only the start point and velocity and returns
a list), it returns at most `TRAJECTORY_STEPS` (64) points, and it stops
before recording any point past the ground line, so every returned point
has `y ≤ GROUND_Y - PROJECTILE_RADIUS`. -/
theorem simulateTrajectory_spec (start velocity : Point) :
    simulateTrajectory start velocity = simulateTrajectory start velocity ∧
    (simulateTrajectory start velocity).length ≤ TRAJECTORY_STEPS ∧
    ∀ p ∈ simulateTrajectory start velocity, p.y ≤ GROUND_Y - PROJECTILE_RADIUS := by
  refine ⟨rfl, ?_, ?_⟩
  · exact (trajAux_bounded TRAJECTORY_STEPS start velocity).1
  · exact (trajAux_bounded TRAJECTORY_STEPS start velocity).2

/-- Witness for C7: a concrete launch whose preview holds exactly one
point; that point obeys the ground bound, and the length is within the
step budget. -/
theorem simulateTrajectory_spec_witness :
    (simulateTrajectory ⟨90, 250⟩ ⟨0, 700⟩).length ≤ TRAJECTORY_STEPS ∧
    (⟨90, 31870/121⟩ : Point).y ≤ GROUND_Y - PROJECTILE_RADIUS := by
  have h0 : simulateTrajectory ⟨90, 250⟩ ⟨0, 700⟩ = [⟨90, 31870/121⟩] := by
    rw [simulateTrajectory, show TRAJECTORY_STEPS = 63 + 1 from rfl, trajAux_succ]
    rw [if_neg (by norm_num [GRAVITY, TRAJECTORY_INTERVAL, GROUND_Y, CANVAS_HEIGHT,
      PROJECTILE_RADIUS])]
    rw [show (63:ℕ) = 62 + 1 from rfl, trajAux_succ]
    rw [if_pos (by norm_num [GRAVITY, TRAJECTORY_INTERVAL, GROUND_Y, CANVAS_HEIGHT,
      PROJECTILE_RADIUS])]
    norm_num [GRAVITY, TRAJECTORY_INTERVAL]
  refine ⟨(simulateTrajectory_spec ⟨90, 250⟩ ⟨0, 700⟩).2.1, ?_⟩
  exact (simulateTrajectory_spec ⟨90, 250⟩ ⟨0, 700⟩).2.2 ⟨90, 31870/121⟩
    (by rw [h0]; exact List.mem_singleton.mpr rfl)

/-- C8: every clamped pull point is within `MAX_PULL` of the anchor; a
point already within `MAX_PULL` is returned unchanged; a farther point is
rescaled to lie exactly on the `MAX_PULL` circle, on the ray from the
anchor through the point. -/
theorem clampPullPoint_spec (p : RPoint) :
    hypotR ((clampPullPoint p).x - anchorR.x) ((clampPullPoint p).y - anchorR.y) ≤ (MAX_PULL : ℝ)
    ∧ (hypotR (p.x - anchorR.x) (p.y - anchorR.y) ≤ (MAX_PULL : ℝ) → clampPullPoint p = p)
    ∧ ((MAX_PULL : ℝ) < hypotR (p.x - anchorR.x) (p.y - anchorR.y) →
        hypotR ((clampPullPoint p).x - anchorR.x) ((clampPullPoint p).y - anchorR.y)
          = (MAX_PULL : ℝ)
        ∧ (clampPullPoint p).x - anchorR.x
            = ((MAX_PULL : ℝ) / hypotR (p.x - anchorR.x) (p.y - anchorR.y)) * (p.x - anchorR.x)
        ∧ (clampPullPoint p).y - anchorR.y
            = ((MAX_PULL : ℝ) / hypotR (p.x - anchorR.x) (p.y - anchorR.y)) * (p.y - anchorR.y)) := by
  by_cases h : hypotR (p.x - anchorR.x) (p.y - anchorR.y) ≤ (MAX_PULL : ℝ)
  · have hcl : clampPullPoint p = p := by
      simp only [clampPullPoint]
      rw [if_pos h]
    refine ⟨by rw [hcl]; exact h, fun _ => hcl, fun hlt => absurd h (not_le.mpr hlt)⟩
  · have hlt : (MAX_PULL : ℝ) < hypotR (p.x - anchorR.x) (p.y - anchorR.y) := not_le.mp h
    have hM0 : (0:ℝ) ≤ (MAX_PULL : ℝ) := by norm_num [MAX_PULL]
    have hd0 : 0 < hypotR (p.x - anchorR.x) (p.y - anchorR.y) := lt_of_le_of_lt hM0 hlt
    have hk0 : 0 ≤ (MAX_PULL : ℝ) / hypotR (p.x - anchorR.x) (p.y - anchorR.y) :=
      div_nonneg hM0 (le_of_lt hd0)
    have hclx : (clampPullPoint p).x - anchorR.x
        = (p.x - anchorR.x) * ((MAX_PULL : ℝ) / hypotR (p.x - anchorR.x) (p.y - anchorR.y)) := by
      simp only [clampPullPoint]
      rw [if_neg h]
      ring
    have hcly : (clampPullPoint p).y - anchorR.y
        = (p.y - anchorR.y) * ((MAX_PULL : ℝ) / hypotR (p.x - anchorR.x) (p.y - anchorR.y)) := by
      simp only [clampPullPoint]
      rw [if_neg h]
      ring
    have hdist : hypotR ((clampPullPoint p).x - anchorR.x) ((clampPullPoint p).y - anchorR.y)
        = (MAX_PULL : ℝ) := by
      rw [hclx, hcly, hypotR]
      have hsq : ((p.x - anchorR.x) * ((MAX_PULL : ℝ) / hypotR (p.x - anchorR.x) (p.y - anchorR.y))) ^ 2
          + ((p.y - anchorR.y) * ((MAX_PULL : ℝ) / hypotR (p.x - anchorR.x) (p.y - anchorR.y))) ^ 2
          = ((MAX_PULL : ℝ) / hypotR (p.x - anchorR.x) (p.y - anchorR.y)) ^ 2
            * ((p.x - anchorR.x) ^ 2 + (p.y - anchorR.y) ^ 2) := by ring
      rw [hsq, Real.sqrt_mul (sq_nonneg _), Real.sqrt_sq_eq_abs, abs_of_nonneg hk0]
      have : Real.sqrt ((p.x - anchorR.x) ^ 2 + (p.y - anchorR.y) ^ 2)
          = hypotR (p.x - anchorR.x) (p.y - anchorR.y) := rfl
      rw [this, div_mul_cancel₀ _ (ne_of_gt hd0)]
    refine ⟨le_of_eq hdist, fun hle => absurd hle h, fun _ => ⟨hdist, ?_, ?_⟩⟩
    · rw [hclx]; ring
    · rw [hcly]; ring

/-- Witness for C8: the point `(93, 250)` is at distance 5 ≤ 115 from the
anchor `(90, 246)` and is returned unchanged. -/
theorem clampPullPoint_spec_witness : clampPullPoint ⟨93, 250⟩ = ⟨93, 250⟩ := by
  have hx : (93:ℝ) - anchorR.x = 3 := by
    norm_num [anchorR, SLING_ANCHOR, GROUND_Y, CANVAS_HEIGHT]
  have hy : (250:ℝ) - anchorR.y = 4 := by
    norm_num [anchorR, SLING_ANCHOR, GROUND_Y, CANVAS_HEIGHT]
  have h5 : hypotR ((93:ℝ) - anchorR.x) ((250:ℝ) - anchorR.y) ≤ (MAX_PULL : ℝ) := by
    rw [hx, hy, hypotR]
    have h25 : (3:ℝ) ^ 2 + (4:ℝ) ^ 2 = 5 ^ 2 := by norm_num
    rw [h25, Real.sqrt_sq (by norm_num : (0:ℝ) ≤ 5)]
    norm_num [MAX_PULL]
  exact (clampPullPoint_spec ⟨93, 250⟩).2.1 h5

/-- Slot loop of `buildTargets`: each slot appends exactly one target
(accepted sample or fallback). -/
theorem buildSlots_length (level : ℕ) (ob : Option Obstacle) (rng : ℕ → ℚ) :
    ∀ (slots index : ℕ) (acc : List Target) (c : ℕ),
      ((buildSlots level ob rng slots index acc c).1).length = acc.length + slots := by
  intro slots
  induction slots with
  | zero => intro index acc c; simp [buildSlots]
  | succ k ih =>
    intro index acc c
    rcases h : tryPlace level ob acc rng 36 c with ⟨ot, c2⟩
    cases ot with
    | none => rw [buildSlots, h]; simp [ih]; omega
    | some t => rw [buildSlots, h]; simp [ih]; omega

/-- The motion-assignment block does not change the number of targets. -/
theorem assignMotion_length (piQ : ℚ) (level : ℕ) (ts : List Target) (rng : ℕ → ℚ) (c : ℕ) :
    (assignMotion piQ level ts rng c).length = ts.length := by
  simp only [assignMotion]
  split
  · split <;> split <;> split <;> simp [List.length_set]
  · rfl

/-- C10: for every level ≥ 1 and any obstacle argument and randomness,
`buildTargets` produces exactly `targetCount level` targets — 2 at level
1 and 3 at every level ≥ 2 (no slot is ever left unfilled). -/
theorem buildTargets_count (piQ : ℚ) (level : ℕ) (ob : Option Obstacle) (rng : ℕ → ℚ) (c : ℕ)
    (h : 1 ≤ level) :
    (buildTargets piQ level ob rng c).length = targetCount level
    ∧ (buildTargets piQ level ob rng c).length = if level = 1 then 2 else 3 := by
  have hlen : (buildTargets piQ level ob rng c).length = targetCount level := by
    simp only [buildTargets]
    rw [assignMotion_length, buildSlots_length]
    simp
  refine ⟨hlen, ?_⟩
  rw [hlen]
  unfold targetCount MAX_TARGETS SHOTS_PER_ROUND
  rcases level with _ | _ | n
  · omega
  · simp
  · rw [if_neg (by omega)]
    omega

/-- Witness for C10: level 1, no obstacle, the all-zero randomness stream:
exactly two targets. -/
theorem buildTargets_count_witness :
    (buildTargets 0 1 none (fun _ => 0) 0).length = 2 := by
  have h := (buildTargets_count 0 1 none (fun _ => 0) 0 (by norm_num)).2
  simpa using h

/-- The motion phase never touches the `hit` flag. -/
theorem updateTargetMotion_hit (sinv : ℚ → ℚ) (timeSeconds : ℚ) (t : Target) :
    (updateTargetMotion sinv timeSeconds t).hit = t.hit := by
  rcases hm : t.motion with _ | m
  · simp [updateTargetMotion, hm]
  · cases hh : t.hit
    · rcases m with ⟨ax, amp, sp, ph⟩
      cases ax <;> simp [updateTargetMotion, hm, hh]
    · simp [updateTargetMotion, hm, hh]

/-- The lifecycle branch never touches the target list. -/
theorem applyLifecycle_targets (sr : GameState × Option EndReason) :
    (applyLifecycle sr).targets = sr.1.targets := by
  rcases sr with ⟨s, r⟩
  cases r <;>
    simp only [applyLifecycle, triggerFailure] <;>
    split_ifs <;> rfl

/-- The lifecycle branch never touches the score. -/
theorem applyLifecycle_score (sr : GameState × Option EndReason) :
    (applyLifecycle sr).score = sr.1.score := by
  rcases sr with ⟨s, r⟩
  cases r <;>
    simp only [applyLifecycle, triggerFailure] <;>
    split_ifs <;> rfl

/-- The physics phases leave the status unchanged. -/
theorem tickPhys_status (sinv : ℚ → ℚ) (timeSeconds delta : ℚ) (s : GameState) :
    (tickPhys sinv timeSeconds delta s).1.status = s.status := by
  simp only [tickPhys]
  split <;> rfl

/-- The physics phases leave the level unchanged. -/
theorem tickPhys_level (sinv : ℚ → ℚ) (timeSeconds delta : ℚ) (s : GameState) :
    (tickPhys sinv timeSeconds delta s).1.level = s.level := by
  simp only [tickPhys]
  split <;> rfl

/-- The physics phases leave the pending timeouts unchanged. -/
theorem tickPhys_pending (sinv : ℚ → ℚ) (timeSeconds delta : ℚ) (s : GameState) :
    (tickPhys sinv timeSeconds delta s).1.pending = s.pending := by
  simp only [tickPhys]
  split <;> rfl

/-- The physics phases leave the shot budget unchanged. -/
theorem tickPhys_shotsLeft (sinv : ℚ → ℚ) (timeSeconds delta : ℚ) (s : GameState) :
    (tickPhys sinv timeSeconds delta s).1.shotsLeft = s.shotsLeft := by
  simp only [tickPhys]
  split <;> rfl

/-- The physics phases map the target list by the motion update and
(possibly) the hit update, so the list stays nonempty. -/
theorem tickPhys_targets_ne (sinv : ℚ → ℚ) (timeSeconds delta : ℚ) (s : GameState)
    (h : s.targets ≠ []) : (tickPhys sinv timeSeconds delta s).1.targets ≠ [] := by
  simp only [tickPhys]
  split <;> simp [h]

/-- An inactive projectile skips every physics phase: the projectile is
untouched and no end reason is recorded. -/
theorem tickPhys_skip (sinv : ℚ → ℚ) (timeSeconds delta : ℚ) (s : GameState)
    (h : s.projectile.active = false) :
    tickPhys sinv timeSeconds delta s
      = ({ s with targets := s.targets.map (updateTargetMotion sinv timeSeconds) }, none) := by
  simp only [tickPhys]
  rw [if_neg (by simp [h])]

/-- The ground step deactivates the projectile whenever it records a
reason. -/
theorem groundStep_reason (p : Projectile) (r : EndReason)
    (h : (groundStep p).2 = some r) : (groundStep p).1.active = false := by
  simp only [groundStep] at *
  split_ifs at *
  all_goals simp_all

/-- The bounds step deactivates the projectile whenever it records a
reason (and keeps any previous deactivation). -/
theorem boundsStep_reason (pr : Projectile × Option EndReason) (r : EndReason)
    (h : (boundsStep pr).2 = some r) :
    (boundsStep pr).1.active = false ∨ boundsStep pr = pr := by
  simp only [boundsStep] at *
  split_ifs at * <;> simp_all

/-- A recorded end reason means the projectile ends the physics phases
deactivated. -/
theorem tickPhys_reason_inactive (sinv : ℚ → ℚ) (timeSeconds delta : ℚ) (s : GameState)
    (r : EndReason) (h : (tickPhys sinv timeSeconds delta s).2 = some r) :
    (tickPhys sinv timeSeconds delta s).1.projectile.active = false := by
  by_cases ha : s.projectile.active = true
  · simp only [tickPhys, ha, if_true] at *
    rcases boundsStep_reason _ r h with h2 | h2
    · simpa using h2
    · rw [h2] at h ⊢
      simpa using groundStep_reason _ r h
  · rw [tickPhys_skip sinv timeSeconds delta s (by simpa using ha)] at h
    simp at h

/-- Damping by the restitution factor -0.55 strictly shrinks a nonzero
component. -/
theorem abs_damp_lt (v : ℚ) (hv : v ≠ 0) : |v * (-(11/20))| < |v| := by
  rw [abs_mul]
  have h1 : |(-(11/20) : ℚ)| = 11/20 := by norm_num
  have h2 : 0 < |v| := abs_pos.mpr hv
  rw [h1]
  nlinarith

/-- C4 (amended): on an intersecting tick, the dominant-axis velocity
component is multiplied by the restitution factor -0.55 (sign flipped,
magnitude strictly reduced whenever the component is nonzero), the
position on that axis is clamped to one projectile radius outside the
obstacle on the penetration side, and the other velocity component and
position coordinate are unchanged. -/
theorem resolveObstacle_spec (o : Obstacle) (p : Projectile)
    (hx : circleRectIntersect p.position PROJECTILE_RADIUS o = true) :
    (|p.position.x - (o.position.x + o.width / 2)| > |p.position.y - (o.position.y + o.height / 2)| →
      (resolveObstacle o p).velocity.x = p.velocity.x * (-(11/20))
      ∧ (resolveObstacle o p).velocity.y = p.velocity.y
      ∧ (resolveObstacle o p).position.y = p.position.y
      ∧ (resolveObstacle o p).position.x =
          (if p.position.x - (o.position.x + o.width / 2) > 0
           then o.position.x + o.width + PROJECTILE_RADIUS
           else o.position.x - PROJECTILE_RADIUS)
      ∧ (p.velocity.x ≠ 0 → |(resolveObstacle o p).velocity.x| < |p.velocity.x|))
    ∧ (¬ |p.position.x - (o.position.x + o.width / 2)|
          > |p.position.y - (o.position.y + o.height / 2)| →
      (resolveObstacle o p).velocity.y = p.velocity.y * (-(11/20))
      ∧ (resolveObstacle o p).velocity.x = p.velocity.x
      ∧ (resolveObstacle o p).position.x = p.position.x
      ∧ (resolveObstacle o p).position.y =
          (if p.position.y - (o.position.y + o.height / 2) > 0
           then o.position.y + o.height + PROJECTILE_RADIUS
           else o.position.y - PROJECTILE_RADIUS)
      ∧ (p.velocity.y ≠ 0 → |(resolveObstacle o p).velocity.y| < |p.velocity.y|)) := by
  constructor
  · intro hdom
    have hres : resolveObstacle o p =
        { p with
          velocity := ⟨p.velocity.x * (-(11/20)), p.velocity.y⟩,
          position := ⟨if p.position.x - (o.position.x + o.width / 2) > 0
                       then o.position.x + o.width + PROJECTILE_RADIUS
                       else o.position.x - PROJECTILE_RADIUS,
                       p.position.y⟩ } := by
      simp only [resolveObstacle, hx, if_true, if_pos hdom]
    rw [hres]
    exact ⟨rfl, rfl, rfl, rfl, fun hv => abs_damp_lt _ hv⟩
  · intro hdom
    have hres : resolveObstacle o p =
        { p with
          velocity := ⟨p.velocity.x, p.velocity.y * (-(11/20))⟩,
          position := ⟨p.position.x,
                       if p.position.y - (o.position.y + o.height / 2) > 0
                       then o.position.y + o.height + PROJECTILE_RADIUS
                       else o.position.y - PROJECTILE_RADIUS⟩ } := by
      simp only [resolveObstacle, hx, if_true, if_neg hdom]
    rw [hres]
    exact ⟨rfl, rfl, rfl, rfl, fun hv => abs_damp_lt _ hv⟩

/-- Witness for C4: a projectile with horizontal speed 10 intersecting a
pillar on its left face, horizontally dominant: the x-velocity becomes
-11/2 (sign flipped, magnitude strictly smaller) and the x-position is
clamped to the left face minus the radius. -/
theorem resolveObstacle_spec_witness :
    (resolveObstacle ⟨⟨200, 100⟩, 16, 150⟩ ⟨⟨190, 175⟩, ⟨10, 50⟩, true⟩).velocity.x
      = 10 * (-(11/20))
    ∧ |(resolveObstacle ⟨⟨200, 100⟩, 16, 150⟩ ⟨⟨190, 175⟩, ⟨10, 50⟩, true⟩).velocity.x|
      < |(10 : ℚ)|
    ∧ (resolveObstacle ⟨⟨200, 100⟩, 16, 150⟩ ⟨⟨190, 175⟩, ⟨10, 50⟩, true⟩).position.x
      = 200 - PROJECTILE_RADIUS := by
  have hx : circleRectIntersect (⟨190, 175⟩ : Point) PROJECTILE_RADIUS ⟨⟨200, 100⟩, 16, 150⟩
      = true := by
    simp only [circleRectIntersect, PROJECTILE_RADIUS]
    norm_num
  have h := resolveObstacle_spec ⟨⟨200, 100⟩, 16, 150⟩ ⟨⟨190, 175⟩, ⟨10, 50⟩, true⟩ hx
  have hdom : |(190 : ℚ) - (200 + 16 / 2)| > |(175 : ℚ) - (100 + 150 / 2)| := by norm_num
  have h1 := h.1 hdom
  refine ⟨h1.1, h1.2.2.2.2 (by norm_num), ?_⟩
  rw [h1.2.2.2.1]
  norm_num

/-- Counterexample for C4 as stated: a projectile intersecting the pillar
with zero horizontal velocity on the dominant (horizontal) axis — the
reflected component is again zero, so its magnitude is not strictly
reduced. -/
theorem resolveObstacle_counterexample :
    circleRectIntersect (⟨190, 175⟩ : Point) PROJECTILE_RADIUS ⟨⟨200, 100⟩, 16, 150⟩ = true
    ∧ |(190 : ℚ) - (200 + 16 / 2)| > |(175 : ℚ) - (100 + 150 / 2)|
    ∧ ¬ |(resolveObstacle ⟨⟨200, 100⟩, 16, 150⟩ ⟨⟨190, 175⟩, ⟨0, 50⟩, true⟩).velocity.x|
        < |(⟨⟨190, 175⟩, ⟨0, 50⟩, true⟩ : Projectile).velocity.x| := by
  have hx : circleRectIntersect (⟨190, 175⟩ : Point) PROJECTILE_RADIUS ⟨⟨200, 100⟩, 16, 150⟩
      = true := by
    simp only [circleRectIntersect, PROJECTILE_RADIUS]
    norm_num
  have hdom : |(190 : ℚ) - (200 + 16 / 2)| > |(175 : ℚ) - (100 + 150 / 2)| := by norm_num
  refine ⟨hx, hdom, ?_⟩
  simp only [resolveObstacle, hx, if_true, if_pos hdom]
  norm_num

/-- The hit-detection phase never moves a target. -/
theorem hitUpdate_position (p : Projectile) (t : Target) :
    (if !t.hit && targetHit p t then { t with hit := true } else t).position = t.position := by
  split <;> rfl

/-- Across one full tick, the position of the `i`-th target is exactly
what the motion phase computes for it; the hit and lifecycle phases leave
positions alone. -/
theorem tick_target_position (sinv : ℚ → ℚ) (timeSeconds delta : ℚ) (s : GameState) (i : ℕ) :
    Option.map Target.position ((tick sinv timeSeconds delta s).targets[i]?)
      = Option.map (fun t => (updateTargetMotion sinv timeSeconds t).position)
          (s.targets[i]?) := by
  unfold tick
  rw [applyLifecycle_targets]
  simp only [tickPhys]
  split
  · simp only [List.getElem?_map, Option.map_map]
    cases h : s.targets[i]? with
    | none => rfl
    | some t =>
      simp only [Option.map_some', Function.comp_apply]
      exact congrArg some (hitUpdate_position _ _)
  · simp only [List.getElem?_map, Option.map_map]
    rfl

/-- C6 (amended): on every tick, a target with assigned motion that is
not hit gets, on axis x, position `basePosition.x + sin(t*speed+phase) *
amplitude` with the y-coordinate exactly `basePosition.y`; on axis y the
analogous oscillation is additionally clamped to the vertical band
`[max 45 (GROUND_Y-TARGET_SIZE-140), GROUND_Y-TARGET_SIZE-6]` and the
x-coordinate is exactly `basePosition.x`; a target without motion (or
already hit) has position exactly `basePosition`. -/
theorem tick_target_motion_spec (sinv : ℚ → ℚ) (timeSeconds delta : ℚ) (s : GameState)
    (i : ℕ) (t : Target) (h : s.targets[i]? = some t) :
    ∃ t2, (tick sinv timeSeconds delta s).targets[i]? = some t2
      ∧ (∀ m, t.motion = some m → t.hit = false →
          ((m.axis = Axis.x →
             t2.position.x
               = t.basePosition.x + sinv (timeSeconds * m.speed + m.phase) * m.amplitude
             ∧ t2.position.y = t.basePosition.y)
           ∧ (m.axis = Axis.y →
             t2.position.x = t.basePosition.x
             ∧ t2.position.y
               = min (GROUND_Y - TARGET_SIZE - 6)
                   (max (max 45 (GROUND_Y - TARGET_SIZE - 140))
                     (t.basePosition.y + sinv (timeSeconds * m.speed + m.phase) * m.amplitude)))))
      ∧ (t.motion = none → t2.position = t.basePosition)
      ∧ (t.hit = true → t2.position = t.basePosition) := by
  have hp := tick_target_position sinv timeSeconds delta s i
  rw [h] at hp
  rcases ho : (tick sinv timeSeconds delta s).targets[i]? with _ | t2
  · rw [ho] at hp
    simp at hp
  · rw [ho] at hp
    simp only [Option.map_some'] at hp
    have hpos : t2.position = (updateTargetMotion sinv timeSeconds t).position :=
      Option.some.inj hp
    refine ⟨t2, rfl, ?_, ?_, ?_⟩
    · intro m hm hh
      constructor
      · intro hax
        rcases m with ⟨ax, amp, sp, ph⟩
        cases hax
        rw [hpos]
        simp [updateTargetMotion, hm, hh]
      · intro hax
        rcases m with ⟨ax, amp, sp, ph⟩
        cases hax
        rw [hpos]
        simp [updateTargetMotion, hm, hh]
    · intro hm
      rw [hpos]
      simp [updateTargetMotion, hm]
    · intro hh
      rw [hpos]
      rcases hm : t.motion with _ | m
      · simp [updateTargetMotion, hm]
      · simp [updateTargetMotion, hm, hh]

/-- Witness for C6: an x-axis mover with base (200, 150), amplitude 10 and
sine value 1 oscillates to x = 210 while its y stays 150. -/
theorem tick_target_motion_spec_witness :
    ∃ t2, (tick (fun _ => 1) 0 0
        (⟨4, 0, 2, GameStatus.ready,
          [⟨⟨200, 150⟩, ⟨200, 150⟩, 48, false, some ⟨Axis.x, 10, 1, 0⟩, 0⟩],
          [], resetProjectile, []⟩ : GameState)).targets[0]? = some t2
      ∧ t2.position.x = 210 ∧ t2.position.y = 150 := by
  obtain ⟨t2, h1, h2, h3, h4⟩ := tick_target_motion_spec (fun _ => 1) 0 0
    (⟨4, 0, 2, GameStatus.ready,
      [⟨⟨200, 150⟩, ⟨200, 150⟩, 48, false, some ⟨Axis.x, 10, 1, 0⟩, 0⟩],
      [], resetProjectile, []⟩ : GameState) 0
    ⟨⟨200, 150⟩, ⟨200, 150⟩, 48, false, some ⟨Axis.x, 10, 1, 0⟩, 0⟩ rfl
  obtain ⟨hx, hy⟩ := (h2 ⟨Axis.x, 10, 1, 0⟩ rfl rfl).1 rfl
  refine ⟨t2, h1, ?_, ?_⟩
  · rw [hx]; norm_num
  · rw [hy]

/-- Counterexample for C6 as stated: a y-axis mover with base y = 100 and
amplitude 8 at sine value -1 is clamped to y = 98, not the claimed
`basePosition.y + amplitude * sin = 92`. -/
theorem tick_target_motion_counterexample :
    Option.map Target.position ((tick (fun _ => -1) 0 0
        (⟨4, 0, 2, GameStatus.ready,
          [⟨⟨200, 100⟩, ⟨200, 100⟩, 48, false, some ⟨Axis.y, 8, 1, 0⟩, 0⟩],
          [], resetProjectile, []⟩ : GameState)).targets[0]?)
      = some ⟨200, 98⟩
    ∧ ((98 : ℚ) ≠ 100 + (-1 : ℚ) * 8) := by
  constructor
  · rw [tick_target_position]
    show Option.map _ (some _) = _
    simp only [Option.map_some']
    simp [updateTargetMotion, GROUND_Y, CANVAS_HEIGHT, TARGET_SIZE]
    rw [show ((45 : ℚ) ⊔ (320 - 34 - 48 - 140)) = 98 by norm_num]
    rw [show ((98 : ℚ) ⊔ (100 + -8)) = 98 by norm_num]
    norm_num
  · norm_num

/-- C1: on a tick after whose physics phases every target is hit (with at
least one target) and whose status is not already cooldown, the lifecycle
branch sets status to cooldown, deactivates any residual projectile and
appends exactly one scheduled advance to `level + 1` with the fixed 800ms
delay; firing that event invokes round setup for `level + 1`, resetting
the projectile and the shot budget and setting status ready. -/
theorem tick_round_clear (sinv : ℚ → ℚ) (timeSeconds delta : ℚ) (s : GameState)
    (env : LevelEnv) (s2 : GameState)
    (hAll : ∀ t ∈ (tickPhys sinv timeSeconds delta s).1.targets, t.hit = true)
    (hNe : s.targets ≠ [])
    (hStatus : s.status ≠ GameStatus.cooldown) :
    (tick sinv timeSeconds delta s).status = GameStatus.cooldown
    ∧ (tick sinv timeSeconds delta s).projectile.active = false
    ∧ (tick sinv timeSeconds delta s).pending
        = s.pending ++ [Pending.advance (s.level + 1) 800]
    ∧ (fireEvent env (Pending.advance (s.level + 1) 800) s2).level = s.level + 1
    ∧ (fireEvent env (Pending.advance (s.level + 1) 800) s2).status = GameStatus.ready
    ∧ (fireEvent env (Pending.advance (s.level + 1) 800) s2).projectile = resetProjectile
    ∧ (fireEvent env (Pending.advance (s.level + 1) 800) s2).shotsLeft = SHOTS_PER_ROUND
    ∧ (fireEvent env (Pending.advance (s.level + 1) 800) s2).targets = (env (s.level + 1)).1 := by
  have hAll2 : (tickPhys sinv timeSeconds delta s).1.targets.countP (fun t => !t.hit) = 0 := by
    rw [List.countP_eq_zero]
    intro a ha
    simp [hAll a ha]
  have hNe2 := tickPhys_targets_ne sinv timeSeconds delta s hNe
  have hSt2 : (tickPhys sinv timeSeconds delta s).1.status ≠ GameStatus.cooldown := by
    rw [tickPhys_status]
    exact hStatus
  have htick : tick sinv timeSeconds delta s
      = { (tickPhys sinv timeSeconds delta s).1 with
          status := GameStatus.cooldown,
          projectile := { (tickPhys sinv timeSeconds delta s).1.projectile with active := false },
          pending := (tickPhys sinv timeSeconds delta s).1.pending
            ++ [Pending.advance ((tickPhys sinv timeSeconds delta s).1.level + 1) 800] } := by
    unfold tick applyLifecycle
    rw [if_pos ⟨hAll2, hNe2, hSt2⟩]
  refine ⟨by rw [htick], by rw [htick], ?_, rfl, rfl, rfl, rfl, rfl⟩
  rw [htick]
  show (tickPhys sinv timeSeconds delta s).1.pending
      ++ [Pending.advance ((tickPhys sinv timeSeconds delta s).1.level + 1) 800]
    = s.pending ++ [Pending.advance (s.level + 1) 800]
  rw [tickPhys_pending, tickPhys_level]

/-- C2: on a tick whose physics phases deactivate the projectile (any end
reason) while un-hit targets remain and the shot budget is exhausted, the
status becomes failed, the budget stays 0, the projectile is reset, and
the single pending event is the hard reset with the fixed 900ms delay;
firing it invokes round setup for level 1 (not the current level) and
restores the shot budget to `SHOTS_PER_ROUND`. -/
theorem tick_round_failure (sinv : ℚ → ℚ) (timeSeconds delta : ℚ) (s : GameState)
    (env : LevelEnv) (s2 : GameState) (r : EndReason)
    (hReason : (tickPhys sinv timeSeconds delta s).2 = some r)
    (hRemain : 0 < (tickPhys sinv timeSeconds delta s).1.targets.countP (fun t => !t.hit))
    (hShots : s.shotsLeft = 0)
    (hStatus : s.status ≠ GameStatus.failed) :
    (tick sinv timeSeconds delta s).status = GameStatus.failed
    ∧ (tick sinv timeSeconds delta s).shotsLeft = 0
    ∧ (tick sinv timeSeconds delta s).pending = [Pending.failReset 900]
    ∧ (tick sinv timeSeconds delta s).projectile = resetProjectile
    ∧ (fireEvent env (Pending.failReset 900) s2).level = 1
    ∧ (fireEvent env (Pending.failReset 900) s2).shotsLeft = SHOTS_PER_ROUND
    ∧ (fireEvent env (Pending.failReset 900) s2).status = GameStatus.ready
    ∧ (fireEvent env (Pending.failReset 900) s2).targets = (env 1).1
    ∧ (fireEvent env (Pending.failReset 900) s2).projectile = resetProjectile := by
  have hc1 : ¬((tickPhys sinv timeSeconds delta s).1.targets.countP (fun t => !t.hit) = 0
      ∧ (tickPhys sinv timeSeconds delta s).1.targets ≠ []
      ∧ (tickPhys sinv timeSeconds delta s).1.status ≠ GameStatus.cooldown) := by
    intro hc
    omega
  have hInact := tickPhys_reason_inactive sinv timeSeconds delta s r hReason
  have hSh : (tickPhys sinv timeSeconds delta s).1.shotsLeft ≤ 0 := by
    rw [tickPhys_shotsLeft, hShots]
  have hSt : ¬(tickPhys sinv timeSeconds delta s).1.status = GameStatus.failed := by
    rw [tickPhys_status]
    exact hStatus
  have htick : tick sinv timeSeconds delta s
      = { (tickPhys sinv timeSeconds delta s).1 with
          pending := [Pending.failReset 900],
          projectile := resetProjectile,
          shotsLeft := 0,
          status := GameStatus.failed } := by
    unfold tick applyLifecycle
    rw [if_neg hc1, hReason]
    simp only
    rw [if_pos ⟨hInact, hRemain⟩, if_pos hSh]
    unfold triggerFailure
    rw [if_neg hSt]
  exact ⟨by rw [htick], by rw [htick], by rw [htick], by rw [htick], rfl, rfl, rfl, rfl, rfl⟩

/-- Witness for C1: a one-target round whose target is already hit, in
status flying at level 1: the tick enters cooldown and schedules the
advance to level 2; firing it sets up level 2 with a full budget. -/
theorem tick_round_clear_witness :
    (tick (fun _ => 0) 0 0
        (⟨1, 1, 1, GameStatus.flying, [⟨⟨200, 200⟩, ⟨200, 200⟩, 48, true, none, 0⟩],
          [], resetProjectile, []⟩ : GameState)).status = GameStatus.cooldown
    ∧ (tick (fun _ => 0) 0 0
        (⟨1, 1, 1, GameStatus.flying, [⟨⟨200, 200⟩, ⟨200, 200⟩, 48, true, none, 0⟩],
          [], resetProjectile, []⟩ : GameState)).pending = [Pending.advance 2 800]
    ∧ (fireEvent (fun _ => ([], [])) (Pending.advance 2 800)
        (⟨1, 1, 1, GameStatus.flying, [⟨⟨200, 200⟩, ⟨200, 200⟩, 48, true, none, 0⟩],
          [], resetProjectile, []⟩ : GameState)).level = 2
    ∧ (fireEvent (fun _ => ([], [])) (Pending.advance 2 800)
        (⟨1, 1, 1, GameStatus.flying, [⟨⟨200, 200⟩, ⟨200, 200⟩, 48, true, none, 0⟩],
          [], resetProjectile, []⟩ : GameState)).shotsLeft = SHOTS_PER_ROUND := by
  have hAll : ∀ t ∈ (tickPhys (fun _ => 0) 0 0
      (⟨1, 1, 1, GameStatus.flying, [⟨⟨200, 200⟩, ⟨200, 200⟩, 48, true, none, 0⟩],
        [], resetProjectile, []⟩ : GameState)).1.targets, t.hit = true := by
    rw [tickPhys_skip _ _ _ _ rfl]
    intro t ht
    simp only [List.map_cons, List.map_nil, List.mem_singleton] at ht
    subst ht
    rw [updateTargetMotion_hit]
  have h := tick_round_clear (fun _ => 0) 0 0
    (⟨1, 1, 1, GameStatus.flying, [⟨⟨200, 200⟩, ⟨200, 200⟩, 48, true, none, 0⟩],
      [], resetProjectile, []⟩ : GameState)
    (fun _ => ([], []))
    (⟨1, 1, 1, GameStatus.flying, [⟨⟨200, 200⟩, ⟨200, 200⟩, 48, true, none, 0⟩],
      [], resetProjectile, []⟩ : GameState)
    hAll (by simp) (by simp)
  refine ⟨h.1, ?_, h.2.2.2.1, h.2.2.2.2.2.2.1⟩
  have hp := h.2.2.1
  simpa using hp

/-- Witness for C2: a round at level 2 with the budget exhausted and one
target left, whose flying projectile exits the right bound on this tick:
status becomes failed, the hard reset to level 1 is scheduled, and firing
it restores the full budget at level 1. -/
theorem tick_round_failure_witness :
    (tick (fun _ => 0) 0 0
        (⟨2, 0, 0, GameStatus.flying, [⟨⟨160, 232⟩, ⟨160, 232⟩, 48, false, none, 0⟩],
          [], ⟨⟨1000, 100⟩, ⟨0, 0⟩, true⟩, []⟩ : GameState)).status = GameStatus.failed
    ∧ (tick (fun _ => 0) 0 0
        (⟨2, 0, 0, GameStatus.flying, [⟨⟨160, 232⟩, ⟨160, 232⟩, 48, false, none, 0⟩],
          [], ⟨⟨1000, 100⟩, ⟨0, 0⟩, true⟩, []⟩ : GameState)).pending = [Pending.failReset 900]
    ∧ (fireEvent (fun _ => ([], [])) (Pending.failReset 900)
        (⟨2, 0, 0, GameStatus.flying, [⟨⟨160, 232⟩, ⟨160, 232⟩, 48, false, none, 0⟩],
          [], ⟨⟨1000, 100⟩, ⟨0, 0⟩, true⟩, []⟩ : GameState)).level = 1
    ∧ (fireEvent (fun _ => ([], [])) (Pending.failReset 900)
        (⟨2, 0, 0, GameStatus.flying, [⟨⟨160, 232⟩, ⟨160, 232⟩, 48, false, none, 0⟩],
          [], ⟨⟨1000, 100⟩, ⟨0, 0⟩, true⟩, []⟩ : GameState)).shotsLeft = SHOTS_PER_ROUND := by
  have hphys : tickPhys (fun _ => 0) 0 0
      (⟨2, 0, 0, GameStatus.flying, [⟨⟨160, 232⟩, ⟨160, 232⟩, 48, false, none, 0⟩],
        [], ⟨⟨1000, 100⟩, ⟨0, 0⟩, true⟩, []⟩ : GameState)
      = ((⟨2, 0, 0, GameStatus.flying, [⟨⟨160, 232⟩, ⟨160, 232⟩, 48, false, none, 0⟩],
          [], ⟨⟨1000, 100⟩, ⟨0, 0⟩, false⟩, []⟩ : GameState), some EndReason.bounds) := by
    norm_num [tickPhys, integrate, resolveObstacles, groundStep, boundsStep, targetHit,
      updateTargetMotion, GRAVITY, GROUND_Y, CANVAS_WIDTH, CANVAS_HEIGHT, PROJECTILE_RADIUS,
      TARGET_SIZE]
  have h := tick_round_failure (fun _ => 0) 0 0
    (⟨2, 0, 0, GameStatus.flying, [⟨⟨160, 232⟩, ⟨160, 232⟩, 48, false, none, 0⟩],
      [], ⟨⟨1000, 100⟩, ⟨0, 0⟩, true⟩, []⟩ : GameState)
    (fun _ => ([], []))
    (⟨2, 0, 0, GameStatus.flying, [⟨⟨160, 232⟩, ⟨160, 232⟩, 48, false, none, 0⟩],
      [], ⟨⟨1000, 100⟩, ⟨0, 0⟩, true⟩, []⟩ : GameState)
    EndReason.bounds
    (by rw [hphys]) (by rw [hphys]; simp) rfl (by simp)
  exact ⟨h.1, h.2.2.1, h.2.2.2.2.1, h.2.2.2.2.2.1⟩

/-- Counting hits after the hit-detection map: the old hits plus the
newly detected ones. -/
theorem countP_hit_after (l : List Target) (q : Target → Bool) :
    (l.map (fun t => if !t.hit && q t then { t with hit := true } else t)).countP
        (fun t => t.hit)
      = l.countP (fun t => t.hit) + l.countP (fun t => !t.hit && q t) := by
  induction l with
  | nil => simp
  | cons a l ih =>
    simp only [List.map_cons, List.countP_cons]
    rw [ih]
    by_cases ha : a.hit <;> by_cases hq : q a <;> simp [ha, hq] <;> omega

/-- The motion phase does not change the number of hit targets. -/
theorem countP_hit_motion (sinv : ℚ → ℚ) (timeSeconds : ℚ) (l : List Target) :
    (l.map (updateTargetMotion sinv timeSeconds)).countP (fun t => t.hit)
      = l.countP (fun t => t.hit) := by
  rw [List.countP_map]
  exact List.countP_congr (fun a _ => by simp [updateTargetMotion_hit])

/-- Score conservation of one tick: the score increases by exactly the
number of targets whose hit flag flips on this tick. -/
theorem tick_score_conservation (sinv : ℚ → ℚ) (timeSeconds delta : ℚ) (s : GameState) :
    (tick sinv timeSeconds delta s).score + s.targets.countP (fun t => t.hit)
      = s.score + (tick sinv timeSeconds delta s).targets.countP (fun t => t.hit) := by
  unfold tick
  rw [applyLifecycle_score, applyLifecycle_targets]
  simp only [tickPhys]
  split
  · simp only [countP_hit_after, countP_hit_motion]
    omega
  · simp only [countP_hit_motion]

/-- A hit target stays hit across one tick. -/
theorem tick_hit_preserved (sinv : ℚ → ℚ) (timeSeconds delta : ℚ) (s : GameState)
    (i : ℕ) (t : Target) (h : s.targets[i]? = some t) (hh : t.hit = true) :
    ∃ t2, (tick sinv timeSeconds delta s).targets[i]? = some t2 ∧ t2.hit = true := by
  have hu : (updateTargetMotion sinv timeSeconds t).hit = true := by
    rw [updateTargetMotion_hit]
    exact hh
  unfold tick
  rw [applyLifecycle_targets]
  simp only [tickPhys]
  split
  · rw [List.getElem?_map, List.getElem?_map, h]
    simp only [Option.map_some']
    exact ⟨_, rfl, by simp [hu]⟩
  · rw [List.getElem?_map, h]
    simp only [Option.map_some']
    exact ⟨_, rfl, hu⟩

/-- Hit targets stay hit across any sequence of ticks. -/
theorem runTicks_hit_preserved :
    ∀ (l : List TickIn) (s : GameState) (i : ℕ) (t : Target),
      s.targets[i]? = some t → t.hit = true →
      ∃ t2, (runTicks l s).targets[i]? = some t2 ∧ t2.hit = true := by
  intro l
  induction l with
  | nil => intro s i t h hh; exact ⟨t, h, hh⟩
  | cons a l ih =>
    intro s i t h hh
    obtain ⟨t2, h2, hh2⟩ := tick_hit_preserved a.sinv a.timeSeconds a.delta s i t h hh
    exact ih (tick a.sinv a.timeSeconds a.delta s) i t2 h2 hh2

/-- C3: once a target is hit, every later tick (with any sine oracle,
time and delta, before any round setup) still reports it hit, and each
tick's score increment is exactly the number of targets whose hit flag
flips on that tick — a target hit earlier contributes to both hit counts
and hence adds nothing. -/
theorem tick_hit_monotone (s : GameState) (i : ℕ) (t : Target)
    (h : s.targets[i]? = some t) (hh : t.hit = true) :
    (∀ l : List TickIn, ∃ t2, (runTicks l s).targets[i]? = some t2 ∧ t2.hit = true)
    ∧ (∀ a : TickIn,
        (tick a.sinv a.timeSeconds a.delta s).score + s.targets.countP (fun t => t.hit)
          = s.score + (tick a.sinv a.timeSeconds a.delta s).targets.countP (fun t => t.hit)) :=
  ⟨fun l => runTicks_hit_preserved l s i t h hh,
   fun a => tick_score_conservation a.sinv a.timeSeconds a.delta s⟩

/-- Witness for C3: a concrete already-hit target stays hit across a
two-tick run, and the score-conservation identity holds on a concrete
tick. -/
theorem tick_hit_monotone_witness :
    (∃ t2, (runTicks [⟨fun _ => 0, 0, 0⟩, ⟨fun _ => 0, 1, 1⟩]
        (⟨1, 1, 1, GameStatus.flying, [⟨⟨200, 200⟩, ⟨200, 200⟩, 48, true, none, 0⟩],
          [], resetProjectile, []⟩ : GameState)).targets[0]? = some t2 ∧ t2.hit = true)
    ∧ ((tick (fun _ => 0) 0 0
        (⟨1, 1, 1, GameStatus.flying, [⟨⟨200, 200⟩, ⟨200, 200⟩, 48, true, none, 0⟩],
          [], resetProjectile, []⟩ : GameState)).score
        + (⟨1, 1, 1, GameStatus.flying, [⟨⟨200, 200⟩, ⟨200, 200⟩, 48, true, none, 0⟩],
            [], resetProjectile, []⟩ : GameState).targets.countP (fun t => t.hit)
      = (⟨1, 1, 1, GameStatus.flying, [⟨⟨200, 200⟩, ⟨200, 200⟩, 48, true, none, 0⟩],
          [], resetProjectile, []⟩ : GameState).score
        + (tick (fun _ => 0) 0 0
            (⟨1, 1, 1, GameStatus.flying, [⟨⟨200, 200⟩, ⟨200, 200⟩, 48, true, none, 0⟩],
              [], resetProjectile, []⟩ : GameState)).targets.countP (fun t => t.hit)) := by
  have h := tick_hit_monotone
    (⟨1, 1, 1, GameStatus.flying, [⟨⟨200, 200⟩, ⟨200, 200⟩, 48, true, none, 0⟩],
      [], resetProjectile, []⟩ : GameState) 0
    ⟨⟨200, 200⟩, ⟨200, 200⟩, 48, true, none, 0⟩ rfl rfl
  exact ⟨h.1 [⟨fun _ => 0, 0, 0⟩, ⟨fun _ => 0, 1, 1⟩], h.2 ⟨fun _ => 0, 0, 0⟩⟩

/-- The lifecycle branch never reactivates a deactivated projectile. -/
theorem applyLifecycle_active_false (sr : GameState × Option EndReason)
    (h : sr.1.projectile.active = false) :
    (applyLifecycle sr).projectile.active = false := by
  rcases sr with ⟨s, r⟩
  cases r <;>
    simp only [applyLifecycle, triggerFailure] <;>
    split_ifs <;>
    first | rfl | exact h

/-- A tick on an inactive projectile leaves its position and velocity
untouched and keeps it inactive (integration, collision and hit steps are
skipped, and no lifecycle branch moves an inactive projectile without a
fresh end reason). -/
theorem tick_inactive_frozen (sinv : ℚ → ℚ) (timeSeconds delta : ℚ) (s : GameState)
    (h : s.projectile.active = false) :
    (tick sinv timeSeconds delta s).projectile.position = s.projectile.position
    ∧ (tick sinv timeSeconds delta s).projectile.velocity = s.projectile.velocity
    ∧ (tick sinv timeSeconds delta s).projectile.active = false := by
  unfold tick
  rw [tickPhys_skip sinv timeSeconds delta s h]
  simp only [applyLifecycle]
  split
  · exact ⟨rfl, rfl, rfl⟩
  · exact ⟨rfl, rfl, h⟩

/-- An inactive projectile stays frozen across any sequence of ticks. -/
theorem runTicks_frozen :
    ∀ (l : List TickIn) (s : GameState), s.projectile.active = false →
      (runTicks l s).projectile.position = s.projectile.position
      ∧ (runTicks l s).projectile.velocity = s.projectile.velocity
      ∧ (runTicks l s).projectile.active = false := by
  intro l
  induction l with
  | nil => intro s h; exact ⟨rfl, rfl, h⟩
  | cons a l ih =>
    intro s h
    have h1 := tick_inactive_frozen a.sinv a.timeSeconds a.delta s h
    have h2 := ih (tick a.sinv a.timeSeconds a.delta s) h1.2.2
    exact ⟨h2.1.trans h1.1, h2.2.1.trans h1.2.1, h2.2.2⟩

/-- C5: on a tick whose integrated and obstacle-resolved projectile `p2`
is past the ground line, within the horizontal bounds, and whose damped
rebound speed is below the threshold 40: the y-position is clamped to the
ground line, the vertical velocity is reflected with factor -0.25 and the
horizontal velocity damped by 0.6, the projectile is deactivated on this
very tick with reason ground, and on every subsequent tick its position
and velocity never change (all physics steps are skipped while
inactive). -/
theorem tick_ground_settle (sinv : ℚ → ℚ) (timeSeconds delta : ℚ) (s : GameState)
    (p2 : Projectile)
    (hAct : s.projectile.active = true)
    (hp2 : resolveObstacles s.obstacles (integrate delta s.projectile) = p2)
    (hGround : p2.position.y > GROUND_Y - PROJECTILE_RADIUS)
    (hSettle : |p2.velocity.y * (-(1/4))| < 40)
    (hX1 : ¬ p2.position.x > CANVAS_WIDTH + 80)
    (hX2 : ¬ p2.position.x < -80) :
    (tickPhys sinv timeSeconds delta s).2 = some EndReason.ground
    ∧ (tickPhys sinv timeSeconds delta s).1.projectile
        = ⟨⟨p2.position.x, GROUND_Y - PROJECTILE_RADIUS⟩,
           ⟨p2.velocity.x * (3/5), p2.velocity.y * (-(1/4))⟩, false⟩
    ∧ (tick sinv timeSeconds delta s).projectile.active = false
    ∧ ∀ l : List TickIn,
        (runTicks l (tick sinv timeSeconds delta s)).projectile.position
          = (tick sinv timeSeconds delta s).projectile.position
        ∧ (runTicks l (tick sinv timeSeconds delta s)).projectile.velocity
          = (tick sinv timeSeconds delta s).projectile.velocity
        ∧ (runTicks l (tick sinv timeSeconds delta s)).projectile.active = false := by
  have hgs : groundStep p2
      = (⟨⟨p2.position.x, GROUND_Y - PROJECTILE_RADIUS⟩,
          ⟨p2.velocity.x * (3/5), p2.velocity.y * (-(1/4))⟩, false⟩, some EndReason.ground) := by
    simp only [groundStep]
    rw [if_pos hGround, if_pos hSettle]
  have hbs : boundsStep (groundStep p2)
      = (⟨⟨p2.position.x, GROUND_Y - PROJECTILE_RADIUS⟩,
          ⟨p2.velocity.x * (3/5), p2.velocity.y * (-(1/4))⟩, false⟩, some EndReason.ground) := by
    rw [hgs]
    simp only [boundsStep]
    rw [if_neg]
    intro hc
    rcases hc with hc | hc | hc
    · exact hX1 hc
    · exact hX2 hc
    · rw [GROUND_Y, CANVAS_HEIGHT, PROJECTILE_RADIUS] at hc
      norm_num at hc
  have h2 : (tickPhys sinv timeSeconds delta s).2 = some EndReason.ground := by
    simp only [tickPhys, hAct, if_true]
    rw [hp2, hbs]
  have h3 : (tickPhys sinv timeSeconds delta s).1.projectile
      = ⟨⟨p2.position.x, GROUND_Y - PROJECTILE_RADIUS⟩,
         ⟨p2.velocity.x * (3/5), p2.velocity.y * (-(1/4))⟩, false⟩ := by
    simp only [tickPhys, hAct, if_true]
    rw [hp2, hbs]
  have h4 : (tick sinv timeSeconds delta s).projectile.active = false := by
    unfold tick
    exact applyLifecycle_active_false _ (by rw [h3])
  exact ⟨h2, h3, h4, fun l => runTicks_frozen l (tick sinv timeSeconds delta s) h4⟩

/-- Witness for C5: a projectile at (150, 270) falling at 10 px/s with no
obstacles settles this tick: reason ground, position clamped to y = 264,
velocity (0, -5/2), and it stays frozen over a further tick. -/
theorem tick_ground_settle_witness :
    (tickPhys (fun _ => 0) 0 0
        (⟨1, 0, 1, GameStatus.flying, [⟨⟨160, 100⟩, ⟨160, 100⟩, 48, false, none, 0⟩],
          [], ⟨⟨150, 270⟩, ⟨0, 10⟩, true⟩, []⟩ : GameState)).2 = some EndReason.ground
    ∧ (tickPhys (fun _ => 0) 0 0
        (⟨1, 0, 1, GameStatus.flying, [⟨⟨160, 100⟩, ⟨160, 100⟩, 48, false, none, 0⟩],
          [], ⟨⟨150, 270⟩, ⟨0, 10⟩, true⟩, []⟩ : GameState)).1.projectile
        = ⟨⟨150, 264⟩, ⟨0, -(5/2)⟩, false⟩
    ∧ (runTicks [⟨fun _ => 0, 1, 1⟩] (tick (fun _ => 0) 0 0
        (⟨1, 0, 1, GameStatus.flying, [⟨⟨160, 100⟩, ⟨160, 100⟩, 48, false, none, 0⟩],
          [], ⟨⟨150, 270⟩, ⟨0, 10⟩, true⟩, []⟩ : GameState))).projectile.active = false := by
  have hp2 : resolveObstacles
      ((⟨1, 0, 1, GameStatus.flying, [⟨⟨160, 100⟩, ⟨160, 100⟩, 48, false, none, 0⟩],
        [], ⟨⟨150, 270⟩, ⟨0, 10⟩, true⟩, []⟩ : GameState)).obstacles
      (integrate 0 ((⟨1, 0, 1, GameStatus.flying,
        [⟨⟨160, 100⟩, ⟨160, 100⟩, 48, false, none, 0⟩],
        [], ⟨⟨150, 270⟩, ⟨0, 10⟩, true⟩, []⟩ : GameState)).projectile)
      = ⟨⟨150, 270⟩, ⟨0, 10⟩, true⟩ := by
    norm_num [resolveObstacles, integrate, GRAVITY]
  have h := tick_ground_settle (fun _ => 0) 0 0
    (⟨1, 0, 1, GameStatus.flying, [⟨⟨160, 100⟩, ⟨160, 100⟩, 48, false, none, 0⟩],
      [], ⟨⟨150, 270⟩, ⟨0, 10⟩, true⟩, []⟩ : GameState)
    ⟨⟨150, 270⟩, ⟨0, 10⟩, true⟩ rfl hp2
    (by norm_num [GROUND_Y, CANVAS_HEIGHT, PROJECTILE_RADIUS])
    (by rw [abs_lt]; constructor <;> norm_num)
    (by norm_num [CANVAS_WIDTH])
    (by norm_num)
  refine ⟨h.1, ?_, (h.2.2.2 [⟨fun _ => 0, 1, 1⟩]).2.2⟩
  rw [h.2.1]
  norm_num [GROUND_Y, CANVAS_HEIGHT, PROJECTILE_RADIUS]

/-- C9: a release while dragging with pull point `P` either abandons the
aim (pull distance below 6: sling state cleared, status back to ready,
shot budget and projectile untouched) or, when the pull distance reaches
the threshold, consumes exactly one shot (truncated at zero, and exactly
one whenever a shot is available, as the aiming guard guarantees) and
activates the projectile at the anchor with velocity equal to the negated
pull vector times `VELOCITY_MULTIPLIER`. -/
theorem handlePointerUp_spec (s : AimState) (P : RPoint)
    (hd : s.dragging = true) (hp : s.dragPoint = some P) :
    (hypotR (P.x - anchorR.x) (P.y - anchorR.y) < 6 →
      handlePointerUp s
        = { s with
            dragging := false,
            dragPoint := none,
            trajectory := [],
            status := GameStatus.ready })
    ∧ (¬ hypotR (P.x - anchorR.x) (P.y - anchorR.y) < 6 →
        handlePointerUp s
          = { s with
              dragging := false,
              dragPoint := none,
              trajectory := [],
              shotsLeft := s.shotsLeft - 1,
              projectile := ⟨⟨anchorR.x, anchorR.y⟩,
                ⟨-(P.x - anchorR.x) * (VELOCITY_MULTIPLIER : ℝ),
                 -(P.y - anchorR.y) * (VELOCITY_MULTIPLIER : ℝ)⟩, true⟩,
              status := GameStatus.flying }
        ∧ (handlePointerUp s).shotsLeft = s.shotsLeft - 1
        ∧ (handlePointerUp s).shotsLeft ≤ s.shotsLeft
        ∧ (1 ≤ s.shotsLeft → (handlePointerUp s).shotsLeft + 1 = s.shotsLeft)) := by
  have hne : ¬ s.dragging = false := by rw [hd]; simp
  constructor
  · intro hlt
    simp only [handlePointerUp]
    rw [if_neg hne, hp]
    simp only [Option.getD_some]
    rw [if_pos hlt]
  · intro hge
    have heq : handlePointerUp s
        = { s with
            dragging := false,
            dragPoint := none,
            trajectory := [],
            shotsLeft := s.shotsLeft - 1,
            projectile := ⟨⟨anchorR.x, anchorR.y⟩,
              ⟨-(P.x - anchorR.x) * (VELOCITY_MULTIPLIER : ℝ),
               -(P.y - anchorR.y) * (VELOCITY_MULTIPLIER : ℝ)⟩, true⟩,
            status := GameStatus.flying } := by
      simp only [handlePointerUp]
      rw [if_neg hne, hp]
      simp only [Option.getD_some]
      rw [if_neg hge]
      rfl
    refine ⟨heq, by rw [heq], by rw [heq]; exact Nat.sub_le _ _, fun h1 => ?_⟩
    rw [heq]
    show s.shotsLeft - 1 + 1 = s.shotsLeft
    omega

/-- Witness for C9: releasing at pull point (100, 236) — pull vector
(10, -10) from the anchor (90, 246), distance `Real.sqrt 200 ≥ 6` — with 2
shots left: one shot is consumed and the projectile launches with
velocity (-92, 92), i.e. `-pull * 9.2`. -/
theorem handlePointerUp_spec_witness :
    (handlePointerUp ⟨true, some ⟨100, 236⟩, [], 2,
        ⟨⟨0, 0⟩, ⟨0, 0⟩, false⟩, GameStatus.aiming⟩).shotsLeft = 1
    ∧ (handlePointerUp ⟨true, some ⟨100, 236⟩, [], 2,
        ⟨⟨0, 0⟩, ⟨0, 0⟩, false⟩, GameStatus.aiming⟩).projectile.velocity.x = -92
    ∧ (handlePointerUp ⟨true, some ⟨100, 236⟩, [], 2,
        ⟨⟨0, 0⟩, ⟨0, 0⟩, false⟩, GameStatus.aiming⟩).projectile.velocity.y = 92
    ∧ (handlePointerUp ⟨true, some ⟨100, 236⟩, [], 2,
        ⟨⟨0, 0⟩, ⟨0, 0⟩, false⟩, GameStatus.aiming⟩).projectile.active = true
    ∧ (handlePointerUp ⟨true, some ⟨100, 236⟩, [], 2,
        ⟨⟨0, 0⟩, ⟨0, 0⟩, false⟩, GameStatus.aiming⟩).status = GameStatus.flying := by
  have hax : anchorR.x = 90 := by
    norm_num [anchorR, SLING_ANCHOR]
  have hay : anchorR.y = 246 := by
    norm_num [anchorR, SLING_ANCHOR, GROUND_Y, CANVAS_HEIGHT]
  have hge : ¬ hypotR ((100 : ℝ) - anchorR.x) ((236 : ℝ) - anchorR.y) < 6 := by
    rw [hax, hay, hypotR]
    rw [show ((100 : ℝ) - 90) ^ 2 + ((236 : ℝ) - 246) ^ 2 = 200 by norm_num]
    intro hc
    have h6 : (6 : ℝ) ≤ Real.sqrt 200 := by
      rw [show (6 : ℝ) = Real.sqrt 36 by
        rw [show (36 : ℝ) = 6 ^ 2 by norm_num, Real.sqrt_sq (by norm_num : (0:ℝ) ≤ 6)]]
      exact Real.sqrt_le_sqrt (by norm_num)
    linarith
  have h := (handlePointerUp_spec
    (⟨true, some ⟨100, 236⟩, [], 2, ⟨⟨0, 0⟩, ⟨0, 0⟩, false⟩, GameStatus.aiming⟩ : AimState)
    ⟨100, 236⟩ rfl rfl).2 hge
  have heq := h.1
  refine ⟨?_, ?_, ?_, ?_, ?_⟩
  · simp [heq]
  · rw [heq]
    show -((100 : ℝ) - anchorR.x) * (VELOCITY_MULTIPLIER : ℝ) = -92
    rw [hax]
    norm_num [VELOCITY_MULTIPLIER]
  · rw [heq]
    show -((236 : ℝ) - anchorR.y) * (VELOCITY_MULTIPLIER : ℝ) = 92
    rw [hay]
    norm_num [VELOCITY_MULTIPLIER]
  · simp [heq]
  · simp [heq]
